import Mathlib

/-!
Verification development for the TEKNO M1X Pro mixing engine.

The definitions below are a shallow embedding of the TypeScript sources
`src/services/beatParser.ts` and `src/services/mixEngine.ts`.  JavaScript
numbers are modelled as rationals (`ℚ`); audio sample data, whose
processing involves the cosine-based Hanning window, is modelled over the
reals (`ℝ`).  JavaScript `while` loops are translated into well-founded
recursive functions whose guards match the loop conditions literally.
-/

/-! ## Beat parser (src/services/beatParser.ts)

`BeatParser.getLockedGrid` normalizes a phase offset with two `while`
loops (`while (t < 0) t += idealInterval; while (t > idealInterval) t -=
idealInterval;`) and then emits a beat every `idealInterval` seconds while
`t < totalDuration`.  The two loops become `normUp` and `normDown`; the
emission loop becomes `gridLoop`, carrying the `beatCount` counter `k`.
The guards carry the extra conjunct `0 < ivl`: for a non-positive
interval the JavaScript loops would not terminate, and every claim below
assumes a positive tempo. -/

/-- Embedding of `while (t < 0) t += idealInterval`. -/
def normUp (ivl t : ℚ) : ℚ :=
  if 0 < ivl ∧ t < 0 then normUp ivl (t + ivl) else t
termination_by (⌈-t / ivl⌉).toNat
decreasing_by
  rename_i h
  obtain ⟨hivl, ht⟩ := h
  have h1 : -(t + ivl) / ivl = -t / ivl - 1 := by field_simp; ring
  rw [h1, Int.ceil_sub_one]
  have h2 : (0 : ℚ) < -t / ivl := div_pos (by linarith) hivl
  have h3 : 0 < ⌈-t / ivl⌉ := Int.ceil_pos.mpr h2
  omega

/-- Embedding of `while (t > idealInterval) t -= idealInterval`. -/
def normDown (ivl t : ℚ) : ℚ :=
  if 0 < ivl ∧ ivl < t then normDown ivl (t - ivl) else t
termination_by (⌈(t - ivl) / ivl⌉).toNat
decreasing_by
  rename_i h
  obtain ⟨hivl, ht⟩ := h
  have h1 : (t - ivl - ivl) / ivl = (t - ivl) / ivl - 1 := by field_simp; try ring
  rw [h1, Int.ceil_sub_one]
  have h2 : (0 : ℚ) < (t - ivl) / ivl := div_pos (by linarith) hivl
  have h3 : 0 < ⌈(t - ivl) / ivl⌉ := Int.ceil_pos.mpr h2
  omega

/-- Embedding of the beat-emission loop `while (t < totalDuration) { ... }`:
returns the pair (lockedBeats, downbeats); `k` is the running `beatCount`,
and a beat is recorded as a downbeat when `beatCount % 4 === 0`. -/
def gridLoop (ivl dur t : ℚ) (k : ℕ) : List ℚ × List ℚ :=
  if 0 < ivl ∧ t < dur then
    let rest := gridLoop ivl dur (t + ivl) (k + 1)
    (t :: rest.1, if k % 4 = 0 then t :: rest.2 else rest.2)
  else ([], [])
termination_by (⌈(dur - t) / ivl⌉).toNat
decreasing_by
  rename_i h
  obtain ⟨hivl, ht⟩ := h
  have h1 : (dur - (t + ivl)) / ivl = (dur - t) / ivl - 1 := by field_simp; ring
  rw [h1, Int.ceil_sub_one]
  have h2 : (0 : ℚ) < (dur - t) / ivl := div_pos (by linarith) hivl
  have h3 : 0 < ⌈(dur - t) / ivl⌉ := Int.ceil_pos.mpr h2
  omega

/-- The `BeatGrid` record returned by `getLockedGrid`; `offset` is in
milliseconds, exactly as the source stores `averageOffset * 1000`. -/
structure BeatGrid where
  bpm : ℚ
  offset : ℚ
  beats : List ℚ
  downbeats : List ℚ
deriving DecidableEq

/-- Embedding of `BeatParser.getLockedGrid`.  The phase resolution keeps
the source's priority: a supplied `forcedOffset >= 0` wins, else the
average residual of the first `min(length, 32)` raw onsets, else `0`. -/
def BeatParser.getLockedGrid (rawBeats : List ℚ) (detectedBpm totalDuration : ℚ)
    (forcedOffset : ℚ) : BeatGrid :=
  let idealInterval := 60 / detectedBpm
  let averageOffset : ℚ :=
    if 0 ≤ forcedOffset then forcedOffset
    else if 2 ≤ rawBeats.length then
      ((List.range (min rawBeats.length 32)).foldl
        (fun s i => s + (rawBeats.getD i 0 - (i : ℚ) * idealInterval)) 0)
        / ((min rawBeats.length 32 : ℕ) : ℚ)
    else 0
  let t0 := normDown idealInterval (normUp idealInterval averageOffset)
  let g := gridLoop idealInterval totalDuration t0 0
  { bpm := detectedBpm, offset := averageOffset * 1000, beats := g.1, downbeats := g.2 }

/-- Counts the indices `j < n` with `(k + j) % 4 = 0`; this is the number
of downbeats the emission loop records over `n` beats starting at
`beatCount = k`. -/
def dbCount : ℕ → ℕ → ℕ
  | 0, _ => 0
  | n + 1, k => (if k % 4 = 0 then 1 else 0) + dbCount n (k + 1)

theorem normUp_nonneg (ivl t : ℚ) (h : 0 < ivl) : 0 ≤ normUp ivl t := by
  induction t using normUp.induct ivl with
  | case1 t hc ih =>
    rw [normUp, if_pos hc]
    exact ih
  | case2 t hc =>
    rw [normUp, if_neg hc]
    rcases le_or_lt 0 t with h0 | h0
    · exact h0
    · exact absurd ⟨h, h0⟩ hc

theorem normDown_bounds (ivl t : ℚ) (h : 0 < ivl) (ht : 0 ≤ t) :
    0 ≤ normDown ivl t ∧ normDown ivl t ≤ ivl := by
  induction t using normDown.induct ivl with
  | case1 t hc ih =>
    rw [normDown, if_pos hc]
    exact ih (by rcases hc with ⟨h1, h2⟩; linarith)
  | case2 t hc =>
    rw [normDown, if_neg hc]
    refine ⟨ht, ?_⟩
    by_contra hlt
    exact hc ⟨h, by linarith⟩

theorem gridLoop_counts (ivl dur : ℚ) (hivl : 0 < ivl) : ∀ t k,
    (gridLoop ivl dur t k).1.length = (⌈(dur - t) / ivl⌉).toNat ∧
    (gridLoop ivl dur t k).2.length = dbCount ((⌈(dur - t) / ivl⌉).toNat) k := by
  intro t k
  induction t, k using gridLoop.induct ivl dur with
  | case1 t k hc ih =>
    obtain ⟨-, ht⟩ := hc
    have hstep : (dur - (t + ivl)) / ivl = (dur - t) / ivl - 1 := by field_simp; ring
    have hpos : 0 < ⌈(dur - t) / ivl⌉ :=
      Int.ceil_pos.mpr (div_pos (by linarith) hivl)
    have hceil : (⌈(dur - t) / ivl⌉).toNat = (⌈(dur - (t + ivl)) / ivl⌉).toNat + 1 := by
      rw [hstep, Int.ceil_sub_one]; omega
    rw [gridLoop, if_pos ⟨hivl, ht⟩]
    obtain ⟨ih1, ih2⟩ := ih
    constructor
    · simpa [ih1] using by omega
    · rw [hceil]
      by_cases hk : k % 4 = 0 <;> simp [hk, dbCount, ih2] <;> omega
  | case2 t k hc =>
    rw [gridLoop, if_neg hc]
    have ht : dur ≤ t := by
      by_contra hlt
      exact hc ⟨hivl, by linarith⟩
    have : ⌈(dur - t) / ivl⌉ ≤ 0 := by
      apply Int.ceil_le.mpr
      push_cast
      exact div_nonpos_of_nonpos_of_nonneg (by linarith) (le_of_lt hivl)
    simp [Int.toNat_of_nonpos this, dbCount]

theorem gridLoop_fst_head (ivl dur t : ℚ) (k : ℕ) :
    (gridLoop ivl dur t k).1.head? = if 0 < ivl ∧ t < dur then some t else none := by
  rw [gridLoop]
  split <;> simp

/-- C2, claim as stated, refuted: with `bpm = 125` and a forced offset of
one second the returned `offsetMs` is `1000`, and `1000 / 1000 = 1` does
not lie in `[0, 60/125)`: `getLockedGrid` returns the raw offset scaled to
milliseconds, not the normalized phase. -/
theorem c2_offset_not_normalized :
    (BeatParser.getLockedGrid [] 125 40 1).offset = 1000 ∧
    ¬ ((BeatParser.getLockedGrid [] 125 40 1).offset / 1000 < 60 / 125) := by
  have h : (BeatParser.getLockedGrid [] 125 40 1).offset = 1000 := by
    simp [BeatParser.getLockedGrid]
  refine ⟨h, ?_⟩
  rw [h]
  norm_num

/-- C2 (amended): only the grid's starting phase is normalized.  For every
positive tempo and arbitrary raw onsets and forced offset, the first beat
of the locked grid lies in `[0, 60/bpm]` (the upper end is attained, e.g.
when the offset is an exact positive multiple of the beat interval), while
the returned `offsetMs` is the raw pre-normalization offset times 1000. -/
theorem c2_start_phase_normalized (rawBeats : List ℚ) (bpm dur off : ℚ) (hb : 0 < bpm) :
    ∀ h0, (BeatParser.getLockedGrid rawBeats bpm dur off).beats.head? = some h0 →
      0 ≤ h0 ∧ h0 ≤ 60 / bpm := by
  intro h0 hhead
  have hivl : 0 < 60 / bpm := by positivity
  rw [BeatParser.getLockedGrid] at hhead
  simp only at hhead
  rw [gridLoop_fst_head] at hhead
  set avg : ℚ :=
    if 0 ≤ off then off
    else if 2 ≤ rawBeats.length then
      ((List.range (min rawBeats.length 32)).foldl
        (fun s i => s + (rawBeats.getD i 0 - (i : ℚ) * (60 / bpm))) 0)
        / ((min rawBeats.length 32 : ℕ) : ℚ)
    else 0 with havg
  have hbounds := normDown_bounds (60 / bpm) (normUp (60 / bpm) avg) hivl
    (normUp_nonneg (60 / bpm) avg hivl)
  split at hhead
  · cases hhead
    exact hbounds
  · cases hhead

/-- Witness for `c2_start_phase_normalized` at `bpm = 125`, forced offset
one second: the hypotheses hold and the first beat is in range. -/
theorem c2_start_phase_normalized_witness :
    (0 : ℚ) < 125 ∧
    (∀ h0, (BeatParser.getLockedGrid [] 125 40 1).beats.head? = some h0 →
      0 ≤ h0 ∧ h0 ≤ 60 / 125) :=
  ⟨by norm_num, c2_start_phase_normalized [] 125 40 1 (by norm_num)⟩

/-- C5, claim as stated, refuted: with no onsets, no external offset,
`bpm = 125` and `duration = 40`, the locked grid contains 84 beats
(`0, 0.48, ..., 39.84`), not 83. -/
theorem c5_beat_count_is_84 :
    (BeatParser.getLockedGrid [] 125 40 (-1)).beats.length = 84 ∧ (84 : ℕ) ≠ 83 := by
  constructor
  · rw [BeatParser.getLockedGrid]
    simp only
    rw [if_neg (by norm_num), if_neg (by simp)]
    rw [normUp, if_neg (by norm_num), normDown, if_neg (by norm_num)]
    rw [(gridLoop_counts (60 / 125) 40 (by norm_num) 0 0).1]
    have : ((40 : ℚ) - 0) / (60 / 125) = 250 / 3 := by norm_num
    rw [this]
    have : ⌈(250 / 3 : ℚ)⌉ = 84 := by
      rw [Int.ceil_eq_iff] <;> norm_num
    rw [this]
    rfl
  · decide

/-- C5 (amended): the empty-analysis scenario with `bpm = 125`,
`duration = 40` yields grid start phase `0`, exactly 84 beats and exactly
21 downbeats. -/
theorem c5_grid_scenario :
    (BeatParser.getLockedGrid [] 125 40 (-1)).beats.head? = some 0 ∧
    (BeatParser.getLockedGrid [] 125 40 (-1)).beats.length = 84 ∧
    (BeatParser.getLockedGrid [] 125 40 (-1)).downbeats.length = 21 := by
  have hko : normDown (60 / 125) (normUp (60 / 125) 0) = 0 := by
    rw [normUp, if_neg (by norm_num), normDown, if_neg (by norm_num)]
  have hceil : ⌈((40 : ℚ) - 0) / (60 / 125)⌉ = 84 := by
    have : ((40 : ℚ) - 0) / (60 / 125) = 250 / 3 := by norm_num
    rw [this, Int.ceil_eq_iff] <;> norm_num
  refine ⟨?_, ?_, ?_⟩
  · rw [BeatParser.getLockedGrid]
    simp only
    rw [if_neg (by norm_num), if_neg (by simp), hko, gridLoop_fst_head]
    rw [if_pos ⟨by norm_num, by norm_num⟩]
  · rw [BeatParser.getLockedGrid]
    simp only
    rw [if_neg (by norm_num), if_neg (by simp), hko]
    rw [(gridLoop_counts (60 / 125) 40 (by norm_num) 0 0).1, hceil]
    rfl
  · rw [BeatParser.getLockedGrid]
    simp only
    rw [if_neg (by norm_num), if_neg (by simp), hko]
    rw [(gridLoop_counts (60 / 125) 40 (by norm_num) 0 0).2, hceil]
    decide

/-! ## Tempo folding (src/services/mixEngine.ts, AnalysisEngine)

`analyzeTrack` post-processes the consensus tempo with

    if (consensusBpm < 80) consensusBpm *= 2;
    if (consensusBpm > 160) consensusBpm /= 2;
    if (consensusBpm < 60 || isNaN(consensusBpm) || consensusBpm === 0) {
        consensusBpm = 125; confidence = 0.1; }

while `analyzeLite` runs

    if (bpm < 80) bpm *= 2;
    if (bpm > 160) bpm /= 2;
    if (isNaN(bpm) || bpm === 0) bpm = 125;

`ℚ` has no NaN, so the `isNaN` disjunct is dropped; the remaining
arithmetic is exact. -/

/-- Embedding of the full-backend tempo folding and fallback; returns the
pair (bpm, confidence). -/
def AnalysisEngine.foldBpmFull (bpm confidence : ℚ) : ℚ × ℚ :=
  let b1 := if bpm < 80 then bpm * 2 else bpm
  let b2 := if b1 > 160 then b1 / 2 else b1
  if b2 < 60 ∨ b2 = 0 then (125, 1 / 10) else (b2, confidence)

/-- Embedding of the lite-backend tempo folding: no `< 60` fallback and no
confidence update. -/
def AnalysisEngine.foldBpmLite (bpm : ℚ) : ℚ :=
  let b1 := if bpm < 80 then bpm * 2 else bpm
  let b2 := if b1 > 160 then b1 / 2 else b1
  if b2 = 0 then 125 else b2

/-- C3, claim as stated, refuted twice.  Full backend: a pre-folding
consensus of 350 BPM is halved once to 175, which is outside `[60, 160]`
and is not the 125 fallback.  Lite backend: a raw estimate of 25 BPM is
doubled once to 50, below 60, and the lite path has no `< 60` fallback at
all (nor does it ever set confidence to 0.1). -/
theorem c3_folding_counterexample :
    (AnalysisEngine.foldBpmFull 350 (1 / 2)).1 = 175 ∧
    ¬ ((60 ≤ (AnalysisEngine.foldBpmFull 350 (1 / 2)).1 ∧
          (AnalysisEngine.foldBpmFull 350 (1 / 2)).1 ≤ 160) ∨
        ((AnalysisEngine.foldBpmFull 350 (1 / 2)).1 = 125 ∧
          (AnalysisEngine.foldBpmFull 350 (1 / 2)).2 = 1 / 10)) ∧
    AnalysisEngine.foldBpmLite 25 = 50 ∧
    ¬ (60 ≤ AnalysisEngine.foldBpmLite 25 ∨ AnalysisEngine.foldBpmLite 25 = 125) := by
  refine ⟨?_, ?_, ?_, ?_⟩ <;> · simp [AnalysisEngine.foldBpmFull, AnalysisEngine.foldBpmLite]; norm_num

/-- C3 (amended): the guarantee holds for pre-folding tempos of at most
320.  In that range the full backend yields a tempo in `[60, 160]` or the
125 fallback with confidence exactly 0.1; the lite backend yields a tempo
in `[60, 160]` provided the input is also at least 30 (it lacks the `< 60`
fallback).  For inputs above 320 a single halving is not enough and the
folded tempo stays above 160. -/
theorem c3_folding_range (b conf : ℚ) (hb : b ≤ 320) :
    ((60 ≤ (AnalysisEngine.foldBpmFull b conf).1 ∧
        (AnalysisEngine.foldBpmFull b conf).1 ≤ 160) ∨
      ((AnalysisEngine.foldBpmFull b conf).1 = 125 ∧
        (AnalysisEngine.foldBpmFull b conf).2 = 1 / 10)) ∧
    (30 ≤ b → 60 ≤ AnalysisEngine.foldBpmLite b ∧ AnalysisEngine.foldBpmLite b ≤ 160) := by
  constructor
  · simp only [AnalysisEngine.foldBpmFull]
    split_ifs <;>
      first
        | (right; exact ⟨rfl, rfl⟩)
        | (left; constructor <;> simp_all <;> linarith)
  · intro hb30
    simp only [AnalysisEngine.foldBpmLite]
    split_ifs <;> constructor <;> simp_all <;> linarith

/-- Witness for `c3_folding_range` at a concrete 100 BPM input. -/
theorem c3_folding_range_witness :
    (100 : ℚ) ≤ 320 ∧
    (((60 ≤ (AnalysisEngine.foldBpmFull 100 (1 / 2)).1 ∧
        (AnalysisEngine.foldBpmFull 100 (1 / 2)).1 ≤ 160) ∨
      ((AnalysisEngine.foldBpmFull 100 (1 / 2)).1 = 125 ∧
        (AnalysisEngine.foldBpmFull 100 (1 / 2)).2 = 1 / 10)) ∧
     (30 ≤ (100 : ℚ) → 60 ≤ AnalysisEngine.foldBpmLite 100 ∧
        AnalysisEngine.foldBpmLite 100 ≤ 160)) :=
  ⟨by norm_num, c3_folding_range 100 (1 / 2) (by norm_num)⟩

/-! ## Cue point detection (src/services/mixEngine.ts, AnalysisEngine.detectCuePoints)

The source computes, in order: a start point (first downbeat or 0); an
outro time found by scanning a 3-bucket rolling average of the low-band
energy from the 70% mark for a drop below 60% of the 20%-70% mean; the
nearest downbeat to that outro (the reduce seeds with the last downbeat,
or with `duration` when the list is empty or its last element is `0`,
because of JavaScript `||` on a falsy value); two clamps on the end point;
a 4-bar loop region ending at the end point, whose start is snapped to the
nearest downbeat when within 2 seconds; and two final guards.  Each local
variable of the source becomes a definition below. -/

structure EnergyProfile where
  low : List ℚ
  mid : List ℚ
  high : List ℚ
deriving DecidableEq

/-- Loop region; the source field `end` is a Lean keyword and is renamed
`stop` here. -/
structure LoopRegion where
  start : ℚ
  stop : ℚ
deriving DecidableEq

/-- Cue points; the source field `end` is renamed `stop`. -/
structure CuePoints where
  start : ℚ
  stop : ℚ
  loopRegion : LoopRegion
deriving DecidableEq

/-- Embedding of `downbeats.reduce((prev, curr) => |curr - t| < |prev - t| ?
curr : prev, init)`. -/
def nearestReduce (downbeats : List ℚ) (target init : ℚ) : ℚ :=
  downbeats.foldl (fun prev curr => if |curr - target| < |prev - target| then curr else prev) init

/-- Start point: `beatGrid.downbeats[0]` when present, else 0. -/
def cueStartPoint (g : BeatGrid) : ℚ :=
  match g.downbeats.head? with
  | some d => d
  | none => 0

/-- Outro scan: the first index `i` in `[floor(samples*0.70), samples-5)`
whose 3-bucket rolling average drops below `0.6 ×` the mean of buckets
`[floor(samples*0.2), floor(samples*0.7))`, converted to seconds; defaults
to `duration - 15`. -/
def cueOutroTime (low : List ℚ) (duration : ℚ) : ℚ :=
  let samples := low.length
  let timePerSample := duration / (samples : ℚ)
  let searchStartIndex := (⌊(samples : ℚ) * (70 / 100)⌋).toNat
  let idxs := (List.range ((⌊(samples : ℚ) * (7 / 10)⌋).toNat)).drop
    ((⌊(samples : ℚ) * (2 / 10)⌋).toNat)
  let mainSum := idxs.foldl (fun s i => s + low.getD i 0) 0
  let mainAvg := if 0 < idxs.length then mainSum / (idxs.length : ℚ) else 1 / 2
  let dropThreshold := mainAvg * (6 / 10)
  match ((List.range (samples - 5)).drop searchStartIndex).find?
      (fun i => decide ((low.getD i 0 + low.getD (i + 1) 0 + low.getD (i + 2) 0) / 3
        < dropThreshold)) with
  | some i => (i : ℚ) * timePerSample
  | none => duration - 15

/-- Seed of the nearest-downbeat reduce: `downbeats[len-1] || duration`
(JavaScript `||`: an empty list or a last element equal to 0 both give
`duration`). -/
def cueNearestInit (g : BeatGrid) (duration : ℚ) : ℚ :=
  match g.downbeats.getLast? with
  | some x => if x = 0 then duration else x
  | none => duration

/-- End point: nearest downbeat to the outro time, clamped to
`duration - 5`, then overridden to `0.9 × duration` when below
`0.6 × duration`. -/
def cueEndPoint (g : BeatGrid) (low : List ℚ) (duration : ℚ) : ℚ :=
  let nearestDownbeat := nearestReduce g.downbeats (cueOutroTime low duration)
    (cueNearestInit g duration)
  let e1 := if nearestDownbeat > duration - 5 then duration - 5 else nearestDownbeat
  if e1 < duration * (6 / 10) then duration * (9 / 10) else e1

/-- Loop start: `endPoint - 16 beats`, snapped to the nearest downbeat when
within 2 seconds, overridden to `max(0, duration - 30)` when below the
start point. -/
def cueLoopStart (g : BeatGrid) (low : List ℚ) (duration : ℚ) : ℚ :=
  let loopStart0 := cueEndPoint g low duration - (4 * 4 : ℚ) * (60 / g.bpm)
  let snap := nearestReduce g.downbeats loopStart0 loopStart0
  let loopStart1 := if |snap - loopStart0| < 2 then snap else loopStart0
  if loopStart1 < cueStartPoint g then max 0 (duration - 30) else loopStart1

/-- Embedding of `AnalysisEngine.detectCuePoints`. -/
def AnalysisEngine.detectCuePoints (g : BeatGrid) (energy : EnergyProfile)
    (duration : ℚ) : CuePoints :=
  if energy.low.length = 0 then
    { start := 0, stop := duration - 15,
      loopRegion := { start := duration - 20, stop := duration - 15 } }
  else
    let startPoint := cueStartPoint g
    let endPoint := cueEndPoint g energy.low duration
    let loopStart := cueLoopStart g energy.low duration
    let loopEnd := if endPoint ≤ loopStart then duration else endPoint
    { start := startPoint, stop := loopEnd,
      loopRegion := { start := loopStart, stop := loopEnd } }

theorem nearestReduce_choice (l : List ℚ) (target : ℚ) :
    ∀ init, nearestReduce l target init = init ∨ nearestReduce l target init ∈ l := by
  induction l with
  | nil => intro init; left; rfl
  | cons c tl ih =>
    intro init
    rw [nearestReduce, List.foldl_cons]
    rcases ih (if |c - target| < |init - target| then c else init) with h | h
    · rw [nearestReduce] at h
      rw [h]
      split
      · right; exact List.mem_cons_self c tl
      · left; rfl
    · right
      exact List.mem_cons_of_mem c h

theorem cueEndPoint_bounds (g : BeatGrid) (low : List ℚ) (d : ℚ) (hd : 0 < d) :
    d * (6 / 10) ≤ cueEndPoint g low d ∧ cueEndPoint g low d < d := by
  rw [cueEndPoint]
  split_ifs <;> constructor <;> linarith

theorem cueLoopStart_bounds (g : BeatGrid) (low : List ℚ) (d : ℚ)
    (hbpm : 60 ≤ g.bpm) (hd : 32 ≤ d)
    (hdb : ∀ x ∈ g.downbeats, 0 ≤ x ∧ x < d) :
    1 < cueLoopStart g low d ∧ cueLoopStart g low d < d := by
  have hb0 : (0 : ℚ) < g.bpm := by linarith
  have hE := cueEndPoint_bounds g low d (by linarith)
  have hL1 : (0 : ℚ) < (4 * 4 : ℚ) * (60 / g.bpm) := by positivity
  have hL2 : (4 * 4 : ℚ) * (60 / g.bpm) ≤ 16 := by
    have h1 : 60 / g.bpm ≤ 1 := (div_le_one hb0).mpr hbpm
    linarith
  rw [cueLoopStart]
  set LS0 := cueEndPoint g low d - (4 * 4 : ℚ) * (60 / g.bpm) with hLS0def
  have hLS0 : 16 / 5 ≤ LS0 := by
    rw [hLS0def]
    have := hE.1
    linarith
  have hLS0d : LS0 < d := by
    rw [hLS0def]
    have := hE.2
    linarith
  set snap := nearestReduce g.downbeats LS0 LS0 with hsnapdef
  have hsnap := nearestReduce_choice g.downbeats LS0 LS0
  rw [← hsnapdef] at hsnap
  clear_value LS0 snap
  split_ifs with h1 h2 h2
  · -- snapped and overridden to max 0 (d - 30)
    constructor
    · have : (2 : ℚ) ≤ d - 30 := by linarith
      have hmax : max (0 : ℚ) (d - 30) = d - 30 := max_eq_right (by linarith)
      rw [hmax]; linarith
    · have hmax : max (0 : ℚ) (d - 30) = d - 30 := max_eq_right (by linarith)
      rw [hmax]; linarith
  · -- snapped, no override
    rcases hsnap with h | h
    · rw [h]
      constructor <;> linarith
    · rcases hdb snap h with ⟨h0, hlt⟩
      constructor
      · rcases abs_lt.mp h1 with ⟨ha, hb⟩
        linarith
      · exact hlt
  · -- not snapped, overridden
    constructor
    · have hmax : max (0 : ℚ) (d - 30) = d - 30 := max_eq_right (by linarith)
      rw [hmax]; linarith
    · have hmax : max (0 : ℚ) (d - 30) = d - 30 := max_eq_right (by linarith)
      rw [hmax]; linarith
  · -- not snapped, no override
    constructor <;> linarith

/-- C4, claim as stated, refuted: with an empty energy profile and
`duration = 10` (a degenerate short track), the default path returns
`start = 0`, `end = -5`, `loopRegion = [-10, -5]`, so `start <
loopRegion.start` fails (and the bounds are even negative). -/
theorem c4_cue_ordering_counterexample :
    (AnalysisEngine.detectCuePoints ⟨125, 0, [], []⟩ ⟨[], [], []⟩ 10).loopRegion.start = -10 ∧
    ¬ ((AnalysisEngine.detectCuePoints ⟨125, 0, [], []⟩ ⟨[], [], []⟩ 10).start <
        (AnalysisEngine.detectCuePoints ⟨125, 0, [], []⟩ ⟨[], [], []⟩ 10).loopRegion.start) := by
  constructor
  · rw [AnalysisEngine.detectCuePoints]
    norm_num
  · rw [AnalysisEngine.detectCuePoints]
    norm_num

/-- C4 (amended): the cue ordering `0 ≤ start < loopRegion.start ≤
loopRegion.end ≤ end ≤ duration` holds for every analysis whose energy
profile is non-empty, whose duration is at least 32 seconds, whose tempo
is at least 60 BPM, and whose downbeats all lie in `[0, duration)` with
the first at most one beat interval `60/bpm` — the shape `getLockedGrid`
produces at the tempos the folding step allows.  For the empty-profile
default path with a short duration the ordering fails. -/
theorem c4_cue_ordering (g : BeatGrid) (e : EnergyProfile) (d : ℚ)
    (hbpm : 60 ≤ g.bpm)
    (hlow : e.low ≠ [])
    (hd : 32 ≤ d)
    (hdb : ∀ x ∈ g.downbeats, 0 ≤ x ∧ x < d)
    (hfirst : ∀ x, g.downbeats.head? = some x → x ≤ 60 / g.bpm) :
    0 ≤ (AnalysisEngine.detectCuePoints g e d).start ∧
    (AnalysisEngine.detectCuePoints g e d).start <
      (AnalysisEngine.detectCuePoints g e d).loopRegion.start ∧
    (AnalysisEngine.detectCuePoints g e d).loopRegion.start ≤
      (AnalysisEngine.detectCuePoints g e d).loopRegion.stop ∧
    (AnalysisEngine.detectCuePoints g e d).loopRegion.stop ≤
      (AnalysisEngine.detectCuePoints g e d).stop ∧
    (AnalysisEngine.detectCuePoints g e d).stop ≤ d := by
  have hb0 : (0 : ℚ) < g.bpm := by linarith
  have hlen : e.low.length ≠ 0 := by
    simpa [List.length_eq_zero] using hlow
  have hstart : 0 ≤ cueStartPoint g ∧ cueStartPoint g ≤ 1 := by
    rw [cueStartPoint]
    rcases hh : g.downbeats.head? with - | x
    · norm_num
    · have hmem : x ∈ g.downbeats := List.mem_of_mem_head? hh
      have h1 := (hdb x hmem).1
      have h2 := hfirst x hh
      have h3 : 60 / g.bpm ≤ 1 := (div_le_one hb0).mpr hbpm
      exact ⟨h1, by linarith⟩
  have hE := cueEndPoint_bounds g e.low d (by linarith)
  have hLS := cueLoopStart_bounds g e.low d hbpm hd hdb
  rw [AnalysisEngine.detectCuePoints, if_neg hlen]
  simp only
  refine ⟨hstart.1, ?_, ?_, ?_, ?_⟩
  · exact lt_of_le_of_lt hstart.2 hLS.1
  · split_ifs with h
    · linarith [hLS.2]
    · linarith
  · split_ifs <;> linarith
  · split_ifs with h
    · linarith
    · linarith [hE.2]

/-- Witness for `c4_cue_ordering`: a 40-second track at 125 BPM with one
downbeat at 0.48 s and a one-bucket energy profile. -/
theorem c4_cue_ordering_witness :
    ((60 : ℚ) ≤ 125 ∧ ([ (1 : ℚ) ] : List ℚ) ≠ [] ∧ (32 : ℚ) ≤ 40 ∧
      (∀ x ∈ [(12 / 25 : ℚ)], 0 ≤ x ∧ x < 40) ∧
      (∀ x, ([(12 / 25 : ℚ)] : List ℚ).head? = some x → x ≤ 60 / 125)) ∧
    (0 ≤ (AnalysisEngine.detectCuePoints ⟨125, 0, [12 / 25], [12 / 25]⟩
        ⟨[1], [1], [1]⟩ 40).start ∧
      (AnalysisEngine.detectCuePoints ⟨125, 0, [12 / 25], [12 / 25]⟩
        ⟨[1], [1], [1]⟩ 40).start <
        (AnalysisEngine.detectCuePoints ⟨125, 0, [12 / 25], [12 / 25]⟩
          ⟨[1], [1], [1]⟩ 40).loopRegion.start ∧
      (AnalysisEngine.detectCuePoints ⟨125, 0, [12 / 25], [12 / 25]⟩
        ⟨[1], [1], [1]⟩ 40).loopRegion.start ≤
        (AnalysisEngine.detectCuePoints ⟨125, 0, [12 / 25], [12 / 25]⟩
          ⟨[1], [1], [1]⟩ 40).loopRegion.stop ∧
      (AnalysisEngine.detectCuePoints ⟨125, 0, [12 / 25], [12 / 25]⟩
        ⟨[1], [1], [1]⟩ 40).loopRegion.stop ≤
        (AnalysisEngine.detectCuePoints ⟨125, 0, [12 / 25], [12 / 25]⟩
          ⟨[1], [1], [1]⟩ 40).stop ∧
      (AnalysisEngine.detectCuePoints ⟨125, 0, [12 / 25], [12 / 25]⟩
        ⟨[1], [1], [1]⟩ 40).stop ≤ 40) :=
  ⟨⟨by norm_num, by simp, by norm_num, by norm_num, by norm_num⟩,
    c4_cue_ordering ⟨125, 0, [12 / 25], [12 / 25]⟩ ⟨[1], [1], [1]⟩ 40
      (by norm_num) (by simp) (by norm_num) (by norm_num) (by norm_num)⟩

/-! ## WAV encoding (src/services/mixEngine.ts, MixEngine.bufferToWave)

The sample conversion in the source reads

    sample = Math.max(-1, Math.min(1, channels[i][offset]));
    sample = (0.5 + sample < 0 ? sample * 32768 : sample * 32767)|0;

By JavaScript operator precedence the condition is `(0.5 + sample) < 0`,
i.e. `sample < -0.5`.  `|0` truncates toward zero (the values involved fit
in 32 bits).  The header is 44 bytes of little-endian fields; the data
loop runs `pos` from 44 to `length` in steps of `2 * numOfChan`, emitting
one 16-bit little-endian sample per channel per frame, which is exactly
`len` frames (for zero channels the JavaScript loop would not terminate,
so the embedding is over the frame count). -/

/-- Truncation toward zero, the effect of `|0` on a JavaScript number in
32-bit range. -/
def ratTrunc (q : ℚ) : ℤ :=
  if q < 0 then -⌊-q⌋ else ⌊q⌋

/-- Embedding of `Math.max(-1, Math.min(1, v))`. -/
def clampSample (x : ℚ) : ℚ := max (-1) (min 1 x)

/-- Embedding of the clamp-and-scale conversion of one sample to a signed
16-bit value. -/
def sampleToPcm16 (x : ℚ) : ℤ :=
  let sample := clampSample x
  if 1 / 2 + sample < 0 then ratTrunc (sample * 32768) else ratTrunc (sample * 32767)

/-- Little-endian bytes of `setUint16`. -/
def u16le (n : ℕ) : List ℕ := [n % 256, n / 256 % 256]

/-- Little-endian bytes of `setUint32`. -/
def u32le (n : ℕ) : List ℕ :=
  [n % 256, n / 256 % 256, n / 65536 % 256, n / 16777216 % 256]

/-- Little-endian bytes of `setInt16`: two's complement low 16 bits. -/
def int16le (z : ℤ) : List ℕ := u16le ((z % 65536).toNat)

/-- A rendered PCM buffer as consumed by `bufferToWave`: sample values are
addressed by channel and frame index. -/
structure PcmBuffer where
  numberOfChannels : ℕ
  length : ℕ
  sampleRate : ℕ
  channel : ℕ → ℕ → ℚ

/-- The 44-byte RIFF/WAVE header written by `bufferToWave` (the final
field is `length - pos - 4` with `pos = 40`, i.e. the data byte count). -/
def wavHeader (b : PcmBuffer) (len : ℕ) : List ℕ :=
  let numOfChan := b.numberOfChannels
  let length := len * numOfChan * 2 + 44
  u32le 0x46464952 ++ u32le (length - 8) ++ u32le 0x45564157 ++
    u32le 0x20746d66 ++ u32le 16 ++ u16le 1 ++ u16le numOfChan ++
    u32le b.sampleRate ++ u32le (b.sampleRate * 2 * numOfChan) ++
    u16le (numOfChan * 2) ++ u16le 16 ++ u32le 0x61746164 ++
    u32le (length - 44)

/-- The interleaved sample data written by the `while (pos < length)`
loop: frames `offset, offset+1, ...` in order, channels interleaved. -/
def wavData (b : PcmBuffer) (offset len : ℕ) : List ℕ :=
  (List.range len).flatMap fun k =>
    (List.range b.numberOfChannels).flatMap fun c =>
      int16le (sampleToPcm16 (b.channel c (offset + k)))

/-- Embedding of `MixEngine.bufferToWave`: the byte stream of the Blob. -/
def MixEngine.bufferToWave (b : PcmBuffer) (offset len : ℕ) : List ℕ :=
  wavHeader b len ++ wavData b offset len

/-- Reads the little-endian 32-bit field at byte position `p`. -/
def readU32le (bytes : List ℕ) (p : ℕ) : ℕ :=
  bytes.getD p 0 + 256 * bytes.getD (p + 1) 0 + 65536 * bytes.getD (p + 2) 0 +
    16777216 * bytes.getD (p + 3) 0

theorem wavHeader_length (b : PcmBuffer) (len : ℕ) : (wavHeader b len).length = 44 := by
  rw [wavHeader]
  simp [u32le, u16le]

theorem wavData_length (b : PcmBuffer) (offset len : ℕ) :
    (wavData b offset len).length = len * b.numberOfChannels * 2 := by
  rw [wavData]
  simp only [List.length_flatMap, Function.comp_def, int16le, u16le,
    List.length_cons, List.length_nil, List.map_const', List.sum_replicate,
    List.length_range, smul_eq_mul]
  ring

/-- A 1-second silent stereo buffer at 44100 Hz. -/
def silentStereoBuffer : PcmBuffer :=
  { numberOfChannels := 2, length := 44100, sampleRate := 44100, channel := fun _ _ => 0 }

/-- C8: encoding a 1-second silent stereo buffer at 44100 Hz yields a
176,444-byte stream whose first 4 bytes are `RIFF`, whose bytes 8-11 are
`WAVE`, and whose byte-rate field (offset 28) equals 176400. -/
theorem c8_wav_header_fields :
    (MixEngine.bufferToWave silentStereoBuffer 0 44100).length = 176444 ∧
    (MixEngine.bufferToWave silentStereoBuffer 0 44100).take 4 = [0x52, 0x49, 0x46, 0x46] ∧
    ((MixEngine.bufferToWave silentStereoBuffer 0 44100).drop 8).take 4 =
      [0x57, 0x41, 0x56, 0x45] ∧
    readU32le (MixEngine.bufferToWave silentStereoBuffer 0 44100) 28 = 176400 := by
  have hh : (wavHeader silentStereoBuffer 44100).length = 44 := wavHeader_length _ _
  refine ⟨?_, ?_, ?_, ?_⟩
  · rw [MixEngine.bufferToWave, List.length_append, hh, wavData_length]
    norm_num [silentStereoBuffer]
  · rw [MixEngine.bufferToWave, List.take_append_of_le_length (by rw [hh]; norm_num)]
    decide
  · rw [MixEngine.bufferToWave, List.drop_append_of_le_length (by rw [hh]; norm_num),
      List.take_append_of_le_length (by rw [List.length_drop, hh]; norm_num)]
    decide
  · rw [readU32le, MixEngine.bufferToWave,
      List.getD_append _ _ _ _ (by rw [hh]; norm_num),
      List.getD_append _ _ _ _ (by rw [hh]; norm_num),
      List.getD_append _ _ _ _ (by rw [hh]; norm_num),
      List.getD_append _ _ _ _ (by rw [hh]; norm_num)]
    decide

/-- C1, claim as stated, refuted: the clamped sample `-1/4` is negative,
so the claim prescribes writing `trunc(-1/4 × 32768) = -8192`; but the
source condition is `(0.5 + sample) < 0` by JavaScript operator
precedence, i.e. `sample < -0.5`, so `-1/4` takes the `× 32767` branch and
the written value is `trunc(-8191.75) = -8191`. -/
theorem c1_scaling_counterexample :
    clampSample (-(1 / 4)) = -(1 / 4) ∧
    clampSample (-(1 / 4)) < 0 ∧
    ratTrunc (clampSample (-(1 / 4)) * 32768) = -8192 ∧
    sampleToPcm16 (-(1 / 4)) = -8191 ∧
    (-8191 : ℤ) ≠ -8192 := by
  have hc : clampSample (-(1 / 4)) = -(1 / 4) := by
    rw [clampSample, min_eq_right (by norm_num), max_eq_right (by norm_num)]
  refine ⟨hc, by rw [hc]; norm_num, ?_, ?_, by norm_num⟩
  · rw [hc, ratTrunc, if_pos (by norm_num)]
    norm_num
  · simp only [sampleToPcm16]
    rw [hc, if_neg (by norm_num), ratTrunc, if_pos (by norm_num)]
    norm_num

theorem ratTrunc_bounds (q : ℚ) (lo hi : ℤ) (hlo : (lo : ℚ) ≤ q) (hhi : q ≤ (hi : ℚ)) :
    lo ≤ ratTrunc q ∧ ratTrunc q ≤ hi := by
  rw [ratTrunc]
  split_ifs with h
  · have hceil : -⌊-q⌋ = ⌈q⌉ := by
      rw [Int.floor_neg, neg_neg]
    rw [hceil]
    constructor
    · have h1 : (lo : ℚ) ≤ (⌈q⌉ : ℚ) := le_trans hlo (Int.le_ceil q)
      exact_mod_cast h1
    · exact Int.ceil_le.mpr hhi
  · constructor
    · exact Int.le_floor.mpr hlo
    · have h1 : (⌊q⌋ : ℚ) ≤ (hi : ℚ) := le_trans (Int.floor_le q) hhi
      exact_mod_cast h1

/-- C1 (amended): every output sample is first clamped to `[-1, 1]`, and
the written value is `trunc(s × 32768)` when the clamped sample satisfies
`s < -0.5` and `trunc(s × 32767)` otherwise (truncation toward zero); in
either case the value fits the signed 16-bit range `[-32768, 32767]`, so
`setInt16` never wraps.  The asymmetric-scaling threshold is `-0.5`, not
`0` as claimed. -/
theorem c1_pcm_scaling (x : ℚ) :
    sampleToPcm16 x =
      (if clampSample x < -(1 / 2) then ratTrunc (clampSample x * 32768)
       else ratTrunc (clampSample x * 32767)) ∧
    -32768 ≤ sampleToPcm16 x ∧ sampleToPcm16 x ≤ 32767 := by
  have hlo : -1 ≤ clampSample x := le_max_left _ _
  have hhi : clampSample x ≤ 1 := max_le (by norm_num) (min_le_left _ _)
  simp only [sampleToPcm16]
  set s := clampSample x with hs
  clear_value s
  constructor
  · split_ifs with h1 h2 h2
    · rfl
    · exact absurd (by linarith) h2
    · exact absurd (by linarith : (1 : ℚ) / 2 + s < 0) h1
    · rfl
  · split_ifs with h1
    · have hb := ratTrunc_bounds (s * 32768) (-32768) 32767
        (by push_cast; linarith) (by push_cast; linarith)
      exact hb
    · have hb := ratTrunc_bounds (s * 32767) (-32768) 32767
        (by push_cast; linarith) (by push_cast; linarith)
      exact hb

/-! ## Time stretcher (src/services/mixEngine.ts, InternalTimeStretcher.process)

The overlap-add loop is

    while (outPos < newLength - winSize && inPos < buffer.length - winSize) {
        for (c...) for (i = 0; i < winSize; i++)
            outCh[outPos + i] += inCh[Math.floor(inPos) + i] * hanningWindow[i];
        outPos += hopSize;   // 2048
        inPos += anaHop;     // Math.floor(2048 * speed), an integer
    }

Both cursors stay integral (`anaHop` is an integer), so `Math.floor(inPos)
= inPos`.  Sample data is real-valued because the Hanning window uses the
cosine; channel arrays are modelled as total functions from index to
value, and the inner `for` loop over `i` becomes the pointwise update
`olaIter`.  `speed` itself stays rational.  For a non-positive speed the
JavaScript code would throw on `new Float32Array(newLength)`; the
embedding clamps those lengths with `toNat` and every claim assumes a
positive speed. -/

/-- An audio buffer: channel `c`, frame `j` has sample value
`channel c j`. -/
structure AudioBuffer where
  numberOfChannels : ℕ
  length : ℕ
  sampleRate : ℚ
  channel : ℕ → ℕ → ℝ

/-- Embedding of `0.5 * (1 - Math.cos(2 * Math.PI * i / (winSize - 1)))`
with `winSize = 4096`. -/
noncomputable def hanningWindow (i : ℕ) : ℝ :=
  1 / 2 * (1 - Real.cos (2 * Real.pi * (i : ℝ) / (4096 - 1)))

/-- One iteration of the inner accumulation loop, as a pointwise update:
indices in `[outPos, outPos + 4096)` receive the windowed sample read at
`inPos + (j - outPos)`, all others are unchanged. -/
noncomputable def olaIter (inCh out : ℕ → ℝ) (inPos outPos : ℕ) : ℕ → ℝ :=
  fun j =>
    if outPos ≤ j ∧ j < outPos + 4096 then
      out j + inCh (inPos + (j - outPos)) * hanningWindow (j - outPos)
    else out j

/-- Embedding of the OLA `while` loop; the guard is the source condition
with the subtractions carried out in `ℤ` as JavaScript does. -/
noncomputable def olaLoop (inCh : ℕ → ℝ) (len newLength anaHop : ℕ)
    (inPos outPos : ℕ) (out : ℕ → ℝ) : ℕ → ℝ :=
  if (outPos : ℤ) < (newLength : ℤ) - 4096 ∧ (inPos : ℤ) < (len : ℤ) - 4096 then
    olaLoop inCh len newLength anaHop (inPos + anaHop) (outPos + 2048)
      (olaIter inCh out inPos outPos)
  else out
termination_by ((newLength : ℤ) - outPos).toNat
decreasing_by
  rename_i h
  omega

/-- Embedding of `InternalTimeStretcher.process`. -/
noncomputable def InternalTimeStretcher.process (buffer : AudioBuffer) (speed : ℚ) :
    AudioBuffer :=
  if |speed - 1| < 1 / 1000 then buffer
  else
    let newLength := (⌊(buffer.length : ℚ) / speed⌋).toNat
    let anaHop := (⌊(2048 : ℚ) * speed⌋).toNat
    { numberOfChannels := buffer.numberOfChannels
      length := newLength
      sampleRate := buffer.sampleRate
      channel := fun c =>
        olaLoop (buffer.channel c) buffer.length newLength anaHop 0 0 (fun _ => 0) }

/-- A stereo buffer of 10000 silent frames. -/
def flatBuffer10000 : AudioBuffer :=
  { numberOfChannels := 2, length := 10000, sampleRate := 44100, channel := fun _ _ => 0 }

/-- C6, claim as stated, refuted: `r = 2001/2000 ≠ 1` lies inside the
identity fast path `|r - 1| < 0.001`, so a 10000-frame buffer keeps length
10000 while `floor(10000 / r) = 9995`. -/
theorem c6_stretch_length_counterexample :
    (2001 / 2000 : ℚ) ≠ 1 ∧
    InternalTimeStretcher.process flatBuffer10000 (2001 / 2000) = flatBuffer10000 ∧
    ⌊(flatBuffer10000.length : ℚ) / (2001 / 2000)⌋ = 9995 ∧
    ((InternalTimeStretcher.process flatBuffer10000 (2001 / 2000)).length : ℤ) ≠
      ⌊(flatBuffer10000.length : ℚ) / (2001 / 2000)⌋ := by
  have hid : InternalTimeStretcher.process flatBuffer10000 (2001 / 2000) = flatBuffer10000 := by
    rw [InternalTimeStretcher.process, if_pos (by rw [abs_lt]; constructor <;> norm_num)]
  have hfl : ⌊(flatBuffer10000.length : ℚ) / (2001 / 2000)⌋ = 9995 := by
    rw [Int.floor_eq_iff]
    norm_num [flatBuffer10000]
  refine ⟨by norm_num, hid, hfl, ?_⟩
  rw [hid, hfl]
  norm_num [flatBuffer10000]

/-- C6 (amended): for `|r - 1| ≥ 0.001` and `r > 0` the stretched length
is exactly `floor(inputLength / r)`; for `|r - 1| < 0.001` (which includes
values `r ≠ 1`) the input buffer is returned unchanged, so its length is
the input length, not `floor(inputLength / r)`. -/
theorem c6_stretch_length (b : AudioBuffer) (r : ℚ) :
    (1 / 1000 ≤ |r - 1| → 0 < r →
      ((InternalTimeStretcher.process b r).length : ℤ) = ⌊(b.length : ℚ) / r⌋) ∧
    (|r - 1| < 1 / 1000 → InternalTimeStretcher.process b r = b) := by
  constructor
  · intro h hr
    rw [InternalTimeStretcher.process, if_neg (by rw [not_lt]; exact h)]
    simp only
    rw [Int.toNat_of_nonneg (Int.floor_nonneg.mpr (by positivity))]
  · intro h
    rw [InternalTimeStretcher.process, if_pos h]

/-- Witness for `c6_stretch_length` at `r = 2`. -/
theorem c6_stretch_length_witness :
    (1 / 1000 : ℚ) ≤ |2 - 1| ∧ (0 : ℚ) < 2 ∧
    ((InternalTimeStretcher.process flatBuffer10000 2).length : ℤ) =
      ⌊(flatBuffer10000.length : ℚ) / 2⌋ :=
  ⟨by norm_num, by norm_num,
    (c6_stretch_length flatBuffer10000 2).1 (by norm_num) (by norm_num)⟩

theorem olaLoop_outside_write_range (inCh : ℕ → ℝ) (len newLength anaHop : ℕ) :
    ∀ (inPos outPos : ℕ) (out : ℕ → ℝ) (j : ℕ), (newLength : ℤ) - 1 ≤ (j : ℤ) →
      olaLoop inCh len newLength anaHop inPos outPos out j = out j := by
  intro inPos outPos out j hj
  induction inPos, outPos, out using olaLoop.induct inCh len newLength anaHop with
  | case1 inPos outPos out hc ih =>
    rw [olaLoop, if_pos hc, ih, olaIter]
    rw [if_neg]
    obtain ⟨h1, -⟩ := hc
    push_neg
    intro h2
    omega
  | case2 inPos outPos out hc =>
    rw [olaLoop, if_neg hc]

/-- C10 (amended): whenever the loop guard `outPos < newLength - 4096 ∧
inPos < len - 4096` holds, every read index `inPos + i` (`i < 4096`) is
inside the input and every write index `outPos + i` is at most
`newLength - 2`; moreover the loop never changes an output value at an
index `≥ newLength - 1`, so the final output sample always stays zero.
The stronger original claim — that the whole final window-size tail stays
zero — is refuted by the counterexample below: writes may land anywhere up
to `newLength - 2`, inside the final window. -/
theorem c10_ola_bounds (inCh : ℕ → ℝ) (len newLength anaHop inPos outPos : ℕ)
    (hguard : (outPos : ℤ) < (newLength : ℤ) - 4096 ∧ (inPos : ℤ) < (len : ℤ) - 4096) :
    (∀ i : ℕ, i < 4096 → inPos + i < len ∧ ((outPos + i : ℕ) : ℤ) ≤ (newLength : ℤ) - 2) ∧
    (∀ (out : ℕ → ℝ) (j : ℕ), (newLength : ℤ) - 1 ≤ (j : ℤ) →
      olaLoop inCh len newLength anaHop inPos outPos out j = out j) := by
  obtain ⟨h1, h2⟩ := hguard
  refine ⟨?_, fun out j hj => olaLoop_outside_write_range inCh len newLength anaHop
    inPos outPos out j hj⟩
  intro i hi
  constructor
  · omega
  · push_cast
    omega

/-- Witness for `c10_ola_bounds` at the first iteration of stretching an
8194-frame buffer by 2 (`newLength = 4097`, `anaHop = 4096`). -/
theorem c10_ola_bounds_witness :
    (((0 : ℕ) : ℤ) < (4097 : ℤ) - 4096 ∧ ((0 : ℕ) : ℤ) < (8194 : ℤ) - 4096) ∧
    ((∀ i : ℕ, i < 4096 → 0 + i < 8194 ∧ ((0 + i : ℕ) : ℤ) ≤ (4097 : ℤ) - 2) ∧
      (∀ (out : ℕ → ℝ) (j : ℕ), (4097 : ℤ) - 1 ≤ (j : ℤ) →
        olaLoop (fun _ => (0 : ℝ)) 8194 4097 4096 0 0 out j = out j)) :=
  ⟨⟨by norm_num, by norm_num⟩,
    c10_ola_bounds (fun _ => (0 : ℝ)) 8194 4097 4096 0 0 ⟨by norm_num, by norm_num⟩⟩

theorem hanningWindow_one_ne_zero : hanningWindow 1 ≠ 0 := by
  rw [hanningWindow]
  have hpi := Real.pi_pos
  have harg : 2 * Real.pi * ((1 : ℕ) : ℝ) / (4096 - 1) = 2 * Real.pi / 4095 := by
    push_cast
    ring
  rw [harg]
  have hx1 : (0 : ℝ) < 2 * Real.pi / 4095 := by positivity
  have hx2 : 2 * Real.pi / 4095 < 2 * Real.pi := by
    rw [div_lt_iff₀ (by norm_num)]
    nlinarith
  have hcos : Real.cos (2 * Real.pi / 4095) ≠ 1 := by
    intro h
    have h0 := (Real.cos_eq_one_iff_of_lt_of_lt (by linarith) hx2).mp h
    linarith
  intro h
  apply hcos
  linarith

/-- A mono buffer of 8194 frames, all samples 1. -/
def onesBuffer8194 : AudioBuffer :=
  { numberOfChannels := 1, length := 8194, sampleRate := 44100, channel := fun _ _ => 1 }

/-- C10, tail sub-claim refuted: stretching the all-ones 8194-frame mono
buffer by speed 2 gives `newLength = 4097`, and output index 1 — which
lies in the final window-size tail `[newLength - 4096, newLength)` —
receives the non-zero value `hanningWindow 1` from the single loop
iteration, so the final window-size tail is not left as zeros. -/
theorem c10_tail_counterexample :
    (InternalTimeStretcher.process onesBuffer8194 2).length = 4097 ∧
    (InternalTimeStretcher.process onesBuffer8194 2).length - 4096 ≤ 1 ∧
    (InternalTimeStretcher.process onesBuffer8194 2).channel 0 1 ≠ 0 := by
  have hcond : ¬ (|(2 : ℚ) - 1| < 1 / 1000) := by
    rw [show ((2 : ℚ) - 1) = 1 by norm_num, abs_one]
    norm_num
  have hNL : (⌊(onesBuffer8194.length : ℚ) / 2⌋).toNat = 4097 := by
    rw [show ((onesBuffer8194.length : ℚ)) = 8194 by norm_num [onesBuffer8194],
      show ((8194 : ℚ) / 2) = 4097 by norm_num,
      show ((4097 : ℚ)) = ((4097 : ℤ) : ℚ) by norm_num,
      Int.floor_intCast]
    rfl
  have hAH : (⌊(2048 : ℚ) * 2⌋).toNat = 4096 := by
    rw [show ((2048 : ℚ) * 2) = ((4096 : ℤ) : ℚ) by norm_num, Int.floor_intCast]
    rfl
  refine ⟨?_, ?_, ?_⟩
  · rw [InternalTimeStretcher.process, if_neg hcond]
    simp only
    rw [hNL]
  · rw [InternalTimeStretcher.process, if_neg hcond]
    simp only
    rw [hNL]
  · rw [InternalTimeStretcher.process, if_neg hcond]
    simp only
    rw [hNL, hAH]
    rw [olaLoop, if_pos (by norm_num [onesBuffer8194])]
    rw [olaLoop, if_neg (by norm_num [onesBuffer8194])]
    rw [olaIter]
    rw [if_pos (by omega)]
    simp only [onesBuffer8194]
    simpa using hanningWindow_one_ne_zero

/-! ## Mix timeline (src/services/mixEngine.ts, MixEngine.renderMix)

`renderMix` filters the tracks to those with status `READY` and a positive
BPM (throwing `"No valid tracks to mix."` when none remain), decodes and
stretches each survivor (individual failures are caught and skipped,
throwing `"Failed to process any tracks."` when none survive), and then
builds the timeline: per boundary a technique is drawn by weighted random
choice — modelled as an injected oracle `techOf` from the boundary index,
as the spec's design notes prescribe for the random source — the final
track always uses `SLOW_EQ_BLEND` with overlap 0, and the cursor advances
by `eventDuration - overlapTime` when a successor exists, else by
`eventDuration`.  Cue fields are read with JavaScript `||` defaults
(`jsOr`: a value of 0 falls back), and scaled by `1 / tempo`.  The
`TrackMetadata` record carries the fields `renderMix` reads; its TypeScript
declaration (`types.ts`) is not part of the sources, so the field list is
taken from the usage sites and spec section 3.  `TimelineEvent` omits the
source's `buffer` reference, which the cursor arithmetic never reads. -/

inductive TransitionTechnique
  | hardCut
  | bassSwap
  | longBlend
  | phraseMixing
  | filterSweep
  | echoOut
  | loopEcho
  | dropSwap
  | slowEqBlend
deriving DecidableEq

/-- Target tempo of the mix, fixed at 125 BPM. -/
def TARGET_BPM : ℚ := 125

def BEAT_DURATION : ℚ := 60 / TARGET_BPM

def BAR_DURATION : ℚ := BEAT_DURATION * 4

/-- Embedding of `MixEngine.getOverlapBars` (the `default: 32` arm is
unreachable over the closed technique type). -/
def MixEngine.getOverlapBars : TransitionTechnique → ℚ
  | TransitionTechnique.hardCut => 0
  | TransitionTechnique.dropSwap => 8
  | TransitionTechnique.echoOut => 4
  | TransitionTechnique.loopEcho => 8
  | TransitionTechnique.filterSweep => 16
  | TransitionTechnique.bassSwap => 32
  | TransitionTechnique.slowEqBlend => 32
  | TransitionTechnique.phraseMixing => 32
  | TransitionTechnique.longBlend => 64

inductive TrackStatus
  | pending
  | analyzing
  | ready
  | failed
deriving DecidableEq

/-- Track metadata fields read by `renderMix`; `failed` stands for the
source's `ERROR` status. -/
structure TrackMetadata where
  status : TrackStatus
  originalBpm : ℚ
  duration : ℚ
  cuePoints : Option CuePoints
  gainFactor : Option ℚ
deriving DecidableEq

/-- One entry of `processedTracks`. -/
structure ProcessedTrack where
  buffer : AudioBuffer
  metadata : TrackMetadata
  tempo : ℚ

/-- A timeline event (`startTime` is the source's cursor value when the
event is created). -/
structure TimelineEvent where
  trackIndex : ℕ
  startTime : ℚ
  bufferOffsetStart : ℚ
  bufferOffsetEnd : ℚ
  bufferLoopStart : ℚ
  bufferLoopEnd : ℚ
  overlapTime : ℚ
  technique : TransitionTechnique
  gain : ℚ
deriving DecidableEq

/-- JavaScript `x || dflt` on numbers: `0` is falsy. -/
def jsOr (x dflt : ℚ) : ℚ := if x = 0 then dflt else x

/-- Embedding of `pTrack.metadata.cuePoints?.start || 0`. -/
def rawCueStart (m : TrackMetadata) : ℚ :=
  match m.cuePoints with
  | some c => jsOr c.start 0
  | none => 0

/-- Embedding of `pTrack.metadata.cuePoints?.end || pTrack.metadata.duration`. -/
def rawCueEnd (m : TrackMetadata) : ℚ :=
  match m.cuePoints with
  | some c => jsOr c.stop m.duration
  | none => m.duration

/-- Embedding of `pTrack.metadata.cuePoints?.loopRegion?.start || 0`. -/
def rawLoopStart (m : TrackMetadata) : ℚ :=
  match m.cuePoints with
  | some c => jsOr c.loopRegion.start 0
  | none => 0

/-- Embedding of `pTrack.metadata.cuePoints?.loopRegion?.end || 0`. -/
def rawLoopEnd (m : TrackMetadata) : ℚ :=
  match m.cuePoints with
  | some c => jsOr c.loopRegion.stop 0
  | none => 0

/-- Embedding of `pTrack.metadata.gainFactor || 1.0`. -/
def trackGain (m : TrackMetadata) : ℚ :=
  match m.gainFactor with
  | some g => jsOr g 1
  | none => 1

/-- The timeline event pushed for one track: `hasNext` tells whether a
successor exists (`nextTrack` in the source). -/
def mkTimelineEvent (techOf : ℕ → TransitionTechnique) (hasNext : Bool) (i : ℕ)
    (cursor : ℚ) (p : ProcessedTrack) : TimelineEvent :=
  let technique := if hasNext then techOf i else TransitionTechnique.slowEqBlend
  let overlapBars := if hasNext then MixEngine.getOverlapBars technique else 0
  let scaleFactor := 1 / p.tempo
  { trackIndex := i
    startTime := cursor
    bufferOffsetStart := rawCueStart p.metadata * scaleFactor
    bufferOffsetEnd := rawCueEnd p.metadata * scaleFactor
    bufferLoopStart := rawLoopStart p.metadata * scaleFactor
    bufferLoopEnd := rawLoopEnd p.metadata * scaleFactor
    overlapTime := overlapBars * BAR_DURATION
    technique := technique
    gain := trackGain p.metadata }

/-- Embedding of the timeline-building loop of `renderMix`: `i` is the
track index, `cursor` the running start time. -/
def MixEngine.buildTimeline (techOf : ℕ → TransitionTechnique) :
    ℕ → ℚ → List ProcessedTrack → List TimelineEvent
  | _, _, [] => []
  | i, cursor, p :: rest =>
    let ev := mkTimelineEvent techOf (! rest.isEmpty) i cursor p
    let eventDuration := ev.bufferOffsetEnd - ev.bufferOffsetStart
    ev :: MixEngine.buildTimeline techOf (i + 1)
      (if rest.isEmpty then cursor + eventDuration
       else cursor + (eventDuration - ev.overlapTime)) rest

inductive MixError
  | noValidTracks
  | failedToProcess
deriving DecidableEq

/-- Embedding of the validation and timeline phases of
`MixEngine.renderMix`.  Decoding is the external collaborator
(`loadBuffer`), injected as `decodeOk`; a per-track decode failure is the
caught exception of the source and drops only that track.  An `error`
result models the thrown `Error` — no WAV is produced on that path. -/
noncomputable def MixEngine.renderMix (tracks : List TrackMetadata)
    (decodeOk : TrackMetadata → Option AudioBuffer)
    (techOf : ℕ → TransitionTechnique) : Except MixError (List TimelineEvent) :=
  let validTracks := tracks.filter fun t =>
    decide (t.status = TrackStatus.ready ∧ 0 < t.originalBpm)
  if validTracks.length = 0 then Except.error MixError.noValidTracks
  else
    let processedTracks := validTracks.filterMap fun t =>
      (decodeOk t).map fun rawBuffer =>
        ({ buffer := InternalTimeStretcher.process rawBuffer (TARGET_BPM / t.originalBpm)
           metadata := t
           tempo := TARGET_BPM / t.originalBpm } : ProcessedTrack)
    if processedTracks.length = 0 then Except.error MixError.failedToProcess
    else Except.ok (MixEngine.buildTimeline techOf 0 0 processedTracks)

theorem buildTimeline_cons (techOf : ℕ → TransitionTechnique) (i : ℕ) (cursor : ℚ)
    (p : ProcessedTrack) (rest : List ProcessedTrack) :
    MixEngine.buildTimeline techOf i cursor (p :: rest) =
      mkTimelineEvent techOf (! rest.isEmpty) i cursor p ::
        MixEngine.buildTimeline techOf (i + 1)
          (if rest.isEmpty then
            cursor + ((mkTimelineEvent techOf (! rest.isEmpty) i cursor p).bufferOffsetEnd -
              (mkTimelineEvent techOf (! rest.isEmpty) i cursor p).bufferOffsetStart)
           else
            cursor + (((mkTimelineEvent techOf (! rest.isEmpty) i cursor p).bufferOffsetEnd -
              (mkTimelineEvent techOf (! rest.isEmpty) i cursor p).bufferOffsetStart) -
              (mkTimelineEvent techOf (! rest.isEmpty) i cursor p).overlapTime)) rest := rfl

/-- C7 (confirmed): in every built timeline, for every non-final event,
the successor's mix start time equals this event's start time plus its
event duration (`bufferOffsetEnd - bufferOffsetStart`) minus its overlap
time — for any technique oracle, any starting index and cursor, and any
track list. -/
theorem c7_timeline_overlap (techOf : ℕ → TransitionTechnique)
    (tracks : List ProcessedTrack) :
    ∀ (i : ℕ) (cursor : ℚ) (n : ℕ) (e1 e2 : TimelineEvent),
      (MixEngine.buildTimeline techOf i cursor tracks).get? n = some e1 →
      (MixEngine.buildTimeline techOf i cursor tracks).get? (n + 1) = some e2 →
      e2.startTime = e1.startTime + (e1.bufferOffsetEnd - e1.bufferOffsetStart) -
        e1.overlapTime := by
  induction tracks with
  | nil =>
    intro i cursor n e1 e2 h1 h2
    simp [MixEngine.buildTimeline] at h1
  | cons p rest ih =>
    intro i cursor n e1 e2 h1 h2
    rw [buildTimeline_cons] at h1 h2
    cases n with
    | zero =>
      rw [List.get?_cons_zero] at h1
      injection h1 with h1
      rw [List.get?_cons_succ] at h2
      cases rest with
      | nil => simp [MixEngine.buildTimeline] at h2
      | cons q rest2 =>
        rw [buildTimeline_cons, List.get?_cons_zero] at h2
        injection h2 with h2
        subst h1
        subst h2
        simp only [List.isEmpty_cons, Bool.not_false, mkTimelineEvent, Bool.false_eq_true,
          if_false]
        try ring
    | succ n =>
      rw [List.get?_cons_succ] at h1 h2
      exact ih (i + 1) _ n e1 e2 h1 h2

/-- A silent dummy buffer for witnesses. -/
noncomputable def demoBuffer : AudioBuffer :=
  { numberOfChannels := 1, length := 0, sampleRate := 44100, channel := fun _ _ => 0 }

/-- A ready 125 BPM track used by the witnesses. -/
noncomputable def demoTrack : ProcessedTrack :=
  { buffer := demoBuffer
    metadata :=
      { status := TrackStatus.ready, originalBpm := 125, duration := 100,
        cuePoints := none, gainFactor := none }
    tempo := 1 }

/-- Witness for `c7_timeline_overlap` on a concrete two-track timeline. -/
theorem c7_timeline_overlap_witness :
    ∃ e1 e2,
      (MixEngine.buildTimeline (fun _ => TransitionTechnique.hardCut) 0 0
        [demoTrack, demoTrack]).get? 0 = some e1 ∧
      (MixEngine.buildTimeline (fun _ => TransitionTechnique.hardCut) 0 0
        [demoTrack, demoTrack]).get? 1 = some e2 ∧
      e2.startTime = e1.startTime + (e1.bufferOffsetEnd - e1.bufferOffsetStart) -
        e1.overlapTime :=
  ⟨_, _, rfl, rfl,
    c7_timeline_overlap (fun _ => TransitionTechnique.hardCut) [demoTrack, demoTrack]
      0 0 0 _ _ rfl rfl⟩

/-- C9 (confirmed): if no track has `READY` status (for example because
every decode failed during analysis), `renderMix` fails with the
`NoValidTracks` error before any processing, and the error path carries no
rendered output. -/
theorem c9_no_valid_tracks (tracks : List TrackMetadata)
    (decodeOk : TrackMetadata → Option AudioBuffer) (techOf : ℕ → TransitionTechnique)
    (h : ∀ t ∈ tracks, t.status ≠ TrackStatus.ready) :
    MixEngine.renderMix tracks decodeOk techOf = Except.error MixError.noValidTracks := by
  rw [MixEngine.renderMix]
  have hfilter : (tracks.filter fun t =>
      decide (t.status = TrackStatus.ready ∧ 0 < t.originalBpm)) = [] := by
    rw [List.filter_eq_nil_iff]
    intro t ht
    simp only [decide_eq_true_eq]
    rintro ⟨hs, -⟩
    exact h t ht hs
  simp only [hfilter]
  rfl

/-- A track whose analysis failed. -/
def failedTrack : TrackMetadata :=
  { status := TrackStatus.failed, originalBpm := 120, duration := 100,
    cuePoints := none, gainFactor := none }

/-- Witness for `c9_no_valid_tracks` on a singleton batch whose only track
failed. -/
theorem c9_no_valid_tracks_witness :
    (∀ t ∈ [failedTrack], t.status ≠ TrackStatus.ready) ∧
    MixEngine.renderMix [failedTrack] (fun _ => none)
        (fun _ => TransitionTechnique.hardCut) =
      Except.error MixError.noValidTracks :=
  ⟨by decide, c9_no_valid_tracks [failedTrack] (fun _ => none)
    (fun _ => TransitionTechnique.hardCut) (by decide)⟩
